import Mathlib

/-!
Verification of the image-classification repository
(`cv2/main.py`, `pillow/main.py`, `imageio/main.py`, `benchmark.py`).

The classifiers work on decoded pixel data (unsigned 8-bit samples) and
return one of four labels.  The per-pixel luminance in the Python sources is
computed with IEEE-754 binary64 ("double") arithmetic via
`int(0.299 * r + 0.587 * g + 0.114 * b)`.  Every double value arising in that
computation is a nonnegative dyadic rational that is either zero or has
magnitude in [2^(-7), 2^9]; we therefore represent such a value `v` exactly by
the natural number `v * 2^120` and implement binary64 round-to-nearest-even
directly on this fixed-point representation (`fround`).  This embedding was
checked to agree with the decimal constants' binary64 values and with the
truncated double luminance on boundary and random inputs.
-/

set_option autoImplicit false
set_option maxRecDepth 8000

namespace ImageCapture

/-- The four classification labels produced by `detect_image_type` in each
binding.  The Python sources return the rendered strings directly
(see `labelToString`). -/
inductive Label where
  | allBlack
  | allWhite
  | singleColor (gray : Nat)
  | mixed
deriving DecidableEq, Repr

/-- The strings returned by `detect_image_type` in the Python sources. -/
def labelToString : Label → String
  | .allBlack => "All black"
  | .allWhite => "All white"
  | .singleColor g => "Single color (gray value: " ++ toString g ++ ")"
  | .mixed => "Mixed pixels"

/-- Embeds `normalize_gray_value` from `src/cv2/main.py` and
`src/imageio/main.py` (lines 76-90, identical in both). -/
def normalize_gray_value (gray_value : Nat) : Nat :=
  if gray_value = 0 then 1
  else if gray_value = 255 then 254
  else gray_value

/-! ### Fixed-point model of the binary64 arithmetic -/

/-- Floor of the base-2 logarithm of `n` (0 for `n ≤ 1`), by fuel recursion so
that the kernel can evaluate it. -/
def log2Fuel : Nat → Nat → Nat
  | 0, _ => 0
  | fuel + 1, n => if n ≤ 1 then 0 else log2Fuel fuel (n / 2) + 1

/-- The fixed-point scale: a double value `v` is represented by `v * fpScale`. -/
def fpScale : Nat := 2 ^ 120

/-- The binary64 value nearest to `num / den` (round to nearest, ties to
even), scaled by `fpScale`.  Intended for `0 < den` and values that are either
zero or at least `2^(-60)`; all values in this development are of that form. -/
def fround (num den : Nat) : Nat :=
  if num = 0 then 0
  else
    let T := num * fpScale
    let L := log2Fuel 500 (T / den)
    let k := L - 52
    let d := den * 2 ^ k
    let q := T / d
    let r := T % d
    if r < d / 2 then q * 2 ^ k
    else if d / 2 < r then (q + 1) * 2 ^ k
    else if q % 2 = 0 then q * 2 ^ k
    else (q + 1) * 2 ^ k

/-- The binary64 value of the literal `0.299`, scaled by `fpScale`. -/
def c299 : Nat := fround 299 1000

/-- The binary64 value of the literal `0.587`, scaled by `fpScale`. -/
def c587 : Nat := fround 587 1000

/-- The binary64 value of the literal `0.114`, scaled by `fpScale`. -/
def c114 : Nat := fround 114 1000

/-- Binary64 multiplication on `fpScale`-scaled values. -/
def fMul (x y : Nat) : Nat := fround (x * y) (fpScale * fpScale)

/-- Binary64 addition on `fpScale`-scaled values. -/
def fAdd (x y : Nat) : Nat := fround (x + y) fpScale

/-- The (scaled) value of the Python expression
`0.299 * r + 0.587 * g + 0.114 * b` evaluated in binary64 arithmetic:
products first, then the two additions left to right. -/
def graySum (r g b : Nat) : Nat :=
  fAdd (fAdd (fMul c299 (r * fpScale)) (fMul c587 (g * fpScale)))
    (fMul c114 (b * fpScale))

/-- Embeds `calculate_gray_value` from `src/pillow/main.py` and
`src/imageio/main.py` (lines 60-73): `int(0.299*r + 0.587*g + 0.114*b)`,
binary64 arithmetic truncated toward zero.  `src/cv2/main.py` defines the same
function with the argument order `(b, g, r)`; it is applied here with the
arguments already permuted into `(r, g, b)` order. -/
def calculate_gray_value (r g b : Nat) : Nat :=
  graySum r g b / fpScale

/-- Models `cv2.cvtColor(·, cv2.COLOR_BGR2GRAY)` on 8-bit data: OpenCV uses
the fixed-point formula `(4899*R + 9617*G + 1868*B + 2^13) >> 14`
(coefficients `round(0.299 * 2^14)` etc.), which rounds to nearest. -/
def cv2Gray (b g r : Nat) : Nat :=
  (1868 * b + 9617 * g + 4899 * r + 8192) / 16384

/-- Models `np.dot(rgb, [0.299, 0.587, 0.114]).astype(np.uint8)` from
`src/imageio/main.py` line 122 for one pixel: the binary64 dot product
(accumulated left to right, same association as the scalar expression)
cast to `uint8` (truncation, reduced mod 256). -/
def imageioGray (r g b : Nat) : Nat :=
  calculate_gray_value r g b % 256

/-! ### Decoded images -/

/-- A NumPy array as the cv2 / imageio classifiers receive it: the dimension
list (`img.shape`) and the samples flattened in row-major order.  `img.size`
is the number of elements, i.e. the length of the flattened data. -/
structure NdArray where
  shape : List Nat
  data : List Nat
deriving DecidableEq, Repr

/-- `img.size`: the number of array elements. -/
def NdArray.size (a : NdArray) : Nat := a.data.length

/-- `img.reshape(-1, 3)` on a 3-channel row-major array: the flattened data
grouped into triples in storage order. -/
def chunk3 : List Nat → List (Nat × Nat × Nat)
  | c0 :: c1 :: c2 :: rest => (c0, c1, c2) :: chunk3 rest
  | _ => []

/-- Dropping the alpha channel of a flattened 4-channel row-major array
(`cv2.cvtColor(·, cv2.COLOR_BGRA2BGR)` resp. `img[:, :, :3]`), grouped into
triples in storage order. -/
def chunk4drop : List Nat → List (Nat × Nat × Nat)
  | c0 :: c1 :: c2 :: _ :: rest => (c0, c1, c2) :: chunk4drop rest
  | _ => []

/-- Flattens a pixel-triple list back to row-major samples (used to state
theorems about 3-channel arrays). -/
def flatten3 (pixels : List (Nat × Nat × Nat)) : List Nat :=
  pixels.flatMap fun p => [p.1, p.2.1, p.2.2]

/-- `some v` when the list is nonempty and all its entries equal `v`
(`len(np.unique(xs)) == 1` resp. `all(x == xs[0] for x in xs)`),
`none` otherwise. -/
def uniformValue {α : Type} [DecidableEq α] : List α → Option α
  | [] => none
  | x :: xs => if xs.all fun y => y = x then some x else none

/-- Result of running a piece of Python code that can raise: either a normal
return value or an uncaught exception. -/
inductive PyResult (α : Type) where
  | ok (val : α)
  | exn (msg : String)
deriving DecidableEq, Repr

/-! ### The cv2 classifier (`src/cv2/main.py`) -/

/-- The common tail of `detect_image_type` in `src/cv2/main.py`
(lines 122-148) for a 3-channel image: pixel triples in B,G,R storage order.
First the luminance-uniformity test on the `cv2.cvtColor` gray values
(without `normalize_gray_value`, line 132), then the identical-RGB check
using the repository's own double-precision `calculate_gray_value`
(line 145, argument order `(b, g, r)`).  The `[]` case of the second match is
unreachable for a decoded image (the caller has already ruled out
`img.size == 0`). -/
def cv2ClassifyBGR (pixels : List (Nat × Nat × Nat)) : Label :=
  match uniformValue (pixels.map fun p => cv2Gray p.1 p.2.1 p.2.2) with
  | some gray_value =>
    if gray_value = 0 then .allBlack
    else if gray_value = 255 then .allWhite
    else .singleColor gray_value
  | none =>
    match uniformValue pixels with
    | some (b, g, r) =>
      if b = 0 ∧ g = 0 ∧ r = 0 then .allBlack
      else if b = 255 ∧ g = 255 ∧ r = 255 then .allWhite
      else .singleColor (normalize_gray_value (calculate_gray_value r g b))
    | none => .mixed

/-- Embeds `detect_image_type` from `src/cv2/main.py` (lines 93-148).
A 3-channel image stores B,G,R per pixel (OpenCV decoding).  For an array of
dimensionality below 2 with at least one element, the Python code evaluates
`img.shape[2]` and raises `IndexError`; for dimensionality above 3 it passes
the array to `cv2.cvtColor`, which rejects it.  Those are the `.exn`
cases. -/
def cv2_detect_image_type (img : NdArray) : PyResult Label :=
  if img.size = 0 then .ok .mixed
  else if img.shape.length = 2 then
    match uniformValue img.data with
    | some gray_value =>
      .ok (if gray_value = 0 then .allBlack
        else if gray_value = 255 then .allWhite
        else .singleColor gray_value)
    | none => .ok .mixed
  else if img.shape.length < 3 then .exn "IndexError"
  else if img.shape.getD 2 0 = 4 then
    if img.shape.length = 3 then .ok (cv2ClassifyBGR (chunk4drop img.data))
    else .exn "cvtColor"
  else if img.shape.getD 2 0 = 3 then
    if img.shape.length = 3 then .ok (cv2ClassifyBGR (chunk3 img.data))
    else .exn "cvtColor"
  else .ok .mixed

/-! ### The imageio classifier (`src/imageio/main.py`) -/

/-- The common tail of `detect_image_type` in `src/imageio/main.py`
(lines 126-151) for a 3-channel image: pixel triples in R,G,B storage order.
First the luminance-uniformity test on the `uint8`-cast dot-product gray
values (with `normalize_gray_value`, line 135), then the identical-RGB check
(line 148, `calculate_gray_value(r, g, b)` without the `uint8` cast). -/
def imageioClassifyRGB (pixels : List (Nat × Nat × Nat)) : Label :=
  match uniformValue (pixels.map fun p => imageioGray p.1 p.2.1 p.2.2) with
  | some gray_value =>
    if gray_value = 0 then .allBlack
    else if gray_value = 255 then .allWhite
    else .singleColor (normalize_gray_value gray_value)
  | none =>
    match uniformValue pixels with
    | some (r, g, b) =>
      if r = 0 ∧ g = 0 ∧ b = 0 then .allBlack
      else if r = 255 ∧ g = 255 ∧ b = 255 then .allWhite
      else .singleColor (normalize_gray_value (calculate_gray_value r g b))
    | none => .mixed

/-- Embeds `detect_image_type` from `src/imageio/main.py` (lines 93-151).
A 3-channel image stores R,G,B per pixel (imageio decoding).  Every shape
falls into one of the explicit branches; there is no error path. -/
def imageio_detect_image_type (img : NdArray) : Label :=
  if img.size = 0 then .mixed
  else if img.shape.length = 2 then
    match uniformValue img.data with
    | some gray_value =>
      if gray_value = 0 then .allBlack
      else if gray_value = 255 then .allWhite
      else .singleColor (normalize_gray_value gray_value)
    | none => .mixed
  else if img.shape.length = 3 then
    if img.shape.getD 2 0 = 4 then imageioClassifyRGB (chunk4drop img.data)
    else if img.shape.getD 2 0 = 3 then imageioClassifyRGB (chunk3 img.data)
    else .mixed
  else .mixed

/-! ### The pillow classifier (`src/pillow/main.py`) -/

/-- A PIL image as `detect_image_type` receives it, by decoded mode:
grayscale (`L`), `RGB`, or `RGBA` pixel lists in reading order. -/
inductive PILImage where
  | l (pixels : List Nat)
  | rgb (pixels : List (Nat × Nat × Nat))
  | rgba (pixels : List (Nat × Nat × Nat × Nat))
deriving DecidableEq, Repr

/-- `image.convert('RGB')` followed by `list(rgb_image.getdata())`:
`L` becomes `(v, v, v)` triples and `RGBA` drops the alpha channel. -/
def PILImage.toRGB : PILImage → List (Nat × Nat × Nat)
  | .l pixels => pixels.map fun v => (v, v, v)
  | .rgb pixels => pixels
  | .rgba pixels => pixels.map fun p => (p.1, p.2.1, p.2.2.1)

/-- All channel samples of a decoded PIL image are 8-bit values. -/
def pilValid : PILImage → Prop
  | .l pixels => ∀ v ∈ pixels, v ≤ 255
  | .rgb pixels => ∀ p ∈ pixels, p.1 ≤ 255 ∧ p.2.1 ≤ 255 ∧ p.2.2 ≤ 255
  | .rgba pixels => ∀ p ∈ pixels, p.1 ≤ 255 ∧ p.2.1 ≤ 255 ∧ p.2.2.1 ≤ 255

/-- Embeds `detect_image_type` from `src/pillow/main.py` (lines 76-135):
the identical-pixel test (`all_same`) comes first; its fallback is the
uniform-luminance test (`all_same_gray`).  The two `if gray_value == 0 ... `
adjustments are inlined in the source exactly as written here. -/
def pillow_detect_image_type (image : PILImage) : Label :=
  match image.toRGB with
  | [] => .mixed
  | first :: rest =>
    let first_gray := calculate_gray_value first.1 first.2.1 first.2.2
    if rest.all fun p => p = first then
      if first.1 = 0 ∧ first.2.1 = 0 ∧ first.2.2 = 0 then .allBlack
      else if first.1 = 255 ∧ first.2.1 = 255 ∧ first.2.2 = 255 then .allWhite
      else
        .singleColor
          (if first_gray = 0 then 1
           else if first_gray = 255 then 254
           else first_gray)
    else if rest.all fun p => calculate_gray_value p.1 p.2.1 p.2.2 = first_gray
    then
      .singleColor
        (if first_gray = 0 then 1
         else if first_gray = 255 then 254
         else first_gray)
    else .mixed

/-! ### The benchmark driver (`src/benchmark.py`) -/

/-- The observable outcome of one `subprocess.run` invocation in
`run_solution`: a timeout (`subprocess.TimeoutExpired`), a failure to start or
any other exception, or a completed process.  For a completed process,
`parsedTime` is the result of `TIME_PATTERN.search` on the combined output
followed by `float(...)`: `some t` when a line
`Total processing time: <t> milliseconds` is present, `none` otherwise.
The regex and float parsing are Python library code and are modelled by this
already-parsed field. -/
inductive ProcOutcome where
  | timeout
  | startError
  | completed (parsedTime : Option ℚ)
deriving DecidableEq

/-- Embeds `run_solution` from `src/benchmark.py` (lines 50-105): returns the
parsed analysis time, or `none` for a timeout, any other exception, or output
that does not match `TIME_PATTERN`.  No branch retries the subprocess. -/
def run_solution : ProcOutcome → Option ℚ
  | .timeout => none
  | .startError => none
  | .completed t => t

/-- Embeds the per-solution accumulation loop of `main` in `src/benchmark.py`
(lines 201-216): every run is attempted exactly once, in order, and `times`
collects the successful results only. -/
def collectTimes (outcomes : List ProcOutcome) : List ℚ :=
  outcomes.filterMap run_solution

/-- Embeds the per-solution average in `main` (lines 219-220 and 236-240):
computed over the successful runs only, absent when all runs failed. -/
def averageTime (times : List ℚ) : Option ℚ :=
  if times = [] then none else some (times.sum / times.length)

/-! ### Folder processing (`process_images`, identical in all bindings) -/

/-- The `SUPPORTED_FORMATS` set (line 21 of each binding). -/
def SUPPORTED_FORMATS : List String :=
  [".jpg", ".jpeg", ".png", ".gif", ".bmp", ".webp", ".tiff", ".tif"]

/-- `str.lower()` on an extension (ASCII). -/
def strLower (s : String) : String := String.mk (s.toList.map Char.toLower)

/-- `pathlib.PurePath.suffix` of a file name: with `i` the index of the last
dot, the substring from `i` when `0 < i < len - 1`, otherwise empty. -/
def pathSuffix (name : String) : String :=
  let cs := name.toList
  let afterRev := cs.reverse.takeWhile fun c => c ≠ '.'
  if afterRev.length = cs.length then ""
  else
    let i := cs.length - afterRev.length - 1
    if 0 < i ∧ i < cs.length - 1 then String.mk ('.' :: afterRev.reverse)
    else ""

/-- Embeds `is_image_file` (line 24 of each binding):
`filepath.suffix.lower() in SUPPORTED_FORMATS`. -/
def is_image_file (name : String) : Bool :=
  SUPPORTED_FORMATS.contains (strLower (pathSuffix name))

/-- Insertion sort on strings, modelling Python `sorted` on the names. -/
def insertSorted (s : String) : List String → List String
  | [] => [s]
  | t :: ts => if s ≤ t then s :: t :: ts else t :: insertSorted s ts

/-- Python `sorted` on a list of names. -/
def sortStrings : List String → List String
  | [] => []
  | s :: ss => insertSorted s (sortStrings ss)

/-- Embeds `get_image_files` (lines 37-57 of each binding) after the folder
has been found to exist: the directory entries filtered by `is_image_file`
and sorted.  (`listing` stands for the names `folder.iterdir()` yields.) -/
def get_image_files (listing : List String) : List String :=
  sortStrings (listing.filter fun f => is_image_file f)

/-- The stdout lines of `process_images` (lines 159-192 of
`src/pillow/main.py`, identical in the other bindings).  `decode` stands for
`process_image` on one file: `some (filename, width, height, label)` on
success, `none` on a decode error (which prints to stderr only), and
`elapsed` for the formatted wall-clock milliseconds. -/
def process_images (folder_path : String) (listing : List String)
    (decode : String → Option (String × Nat × Nat × Label))
    (elapsed : String) : List String :=
  let image_files := get_image_files listing
  if image_files = [] then
    ["No supported image files found in " ++ folder_path ++ ".",
     "Supported formats: " ++ String.intercalate ", " (sortStrings SUPPORTED_FORMATS)]
  else
    let results := image_files.filterMap decode
    (results.map fun r =>
      r.1 ++ " (" ++ toString r.2.1 ++ "x" ++ toString r.2.2.1 ++ "): "
        ++ labelToString r.2.2.2)
      ++ ["Total processing time: " ++ elapsed ++ " milliseconds"]

/-! ### Analysis of the binary64 model -/

theorem log2Fuel_spec (fuel : Nat) :
    ∀ n : Nat, 0 < n → n < 2 ^ fuel →
      2 ^ log2Fuel fuel n ≤ n ∧ n < 2 ^ (log2Fuel fuel n + 1) := by
  induction fuel with
  | zero =>
    intro n h1 h2
    simp only [pow_zero] at h2
    omega
  | succ f ih =>
    intro n h1 h2
    rw [log2Fuel]
    by_cases hn : n ≤ 1
    · simp only [hn, if_true]
      have : n = 1 := by omega
      simp [this]
    · simp only [hn, if_false]
      have hd1 : 0 < n / 2 := by omega
      have hd2 : n / 2 < 2 ^ f := by
        have h3 : n < 2 ^ f * 2 := by
          have : (2 : Nat) ^ (f + 1) = 2 ^ f * 2 := by ring
          omega
        omega
      obtain ⟨hl, hr⟩ := ih (n / 2) hd1 hd2
      constructor
      · have : 2 ^ (log2Fuel f (n / 2) + 1) = 2 * 2 ^ log2Fuel f (n / 2) := by ring
        rw [this]
        omega
      · have : 2 ^ (log2Fuel f (n / 2) + 1 + 1) = 2 * 2 ^ (log2Fuel f (n / 2) + 1) := by
          ring
        rw [this]
        omega

/-- The central rounding bound: when the scaled value `num * fpScale / den` is
normalised (at least `2^53`) and fits in the fuel, `fround num den * den` is
within a relative `2^(-53)` of `num * fpScale`, stated cross-multiplied. -/
theorem fround_close (num den : Nat) (hden : 0 < den)
    (hlo : 2 ^ 53 ≤ num * fpScale / den) (hhi : num * fpScale / den < 2 ^ 500) :
    2 ^ 53 * (fround num den * den) ≤ 2 ^ 53 * (num * fpScale) + num * fpScale ∧
    2 ^ 53 * (num * fpScale) ≤ 2 ^ 53 * (fround num den * den) + num * fpScale := by
  have hnum : num ≠ 0 := by
    rintro rfl
    simp at hlo
  rw [fround, if_neg hnum]
  set T := num * fpScale with hT
  set L := log2Fuel 500 (T / den) with hL
  obtain ⟨hbl, hbr⟩ := log2Fuel_spec 500 (T / den) (by omega) hhi
  rw [← hL] at hbl hbr
  have hL53 : 53 ≤ L := by
    by_contra hcon
    have h2 : (2 : Nat) ^ (L + 1) ≤ 2 ^ 53 := Nat.pow_le_pow_right (by omega) (by omega)
    omega
  set k := L - 52 with hk
  have hk1 : 1 ≤ k := by omega
  -- relations between the powers of two involved
  have f1 : 2 ^ (k - 1) * 2 = 2 ^ k := by
    have hke : k - 1 + 1 = k := by omega
    calc 2 ^ (k - 1) * 2 = 2 ^ (k - 1 + 1) := (pow_succ 2 (k - 1)).symm
      _ = 2 ^ k := by rw [hke]
  have f2 : 2 ^ (k - 1) * 2 ^ 53 = 2 ^ L := by
    have hke : k - 1 + 53 = L := by omega
    calc 2 ^ (k - 1) * 2 ^ 53 = 2 ^ (k - 1 + 53) := (pow_add 2 (k - 1) 53).symm
      _ = 2 ^ L := by rw [hke]
  have f3 : den * 2 ^ L ≤ T := by
    have h := (Nat.le_div_iff_mul_le hden).mp hbl
    calc den * 2 ^ L = 2 ^ L * den := Nat.mul_comm _ _
      _ ≤ T := h
  set d := den * 2 ^ k with hd
  have hdpos : 0 < d := Nat.mul_pos hden (Nat.pos_pow_of_pos k (by omega))
  have f5 : d = 2 * (den * 2 ^ (k - 1)) := by
    rw [hd, ← f1]; ring
  have f5h : d / 2 = den * 2 ^ (k - 1) := by omega
  have f6 : 2 ^ 53 * (d / 2) ≤ T := by
    rw [f5h]
    calc 2 ^ 53 * (den * 2 ^ (k - 1)) = den * (2 ^ (k - 1) * 2 ^ 53) := by ring
      _ = den * 2 ^ L := by rw [f2]
      _ ≤ T := f3
  -- division facts as linear data
  have hqr : d * (T / d) + T % d = T := Nat.div_add_mod T d
  have hmod : T % d < d := Nat.mod_lt T hdpos
  have e1 : T / d * 2 ^ k * den = d * (T / d) := by rw [hd]; ring
  have e2 : (T / d + 1) * 2 ^ k * den = d * (T / d) + d := by rw [hd]; ring
  set Qd := d * (T / d) with hQd
  set r := T % d with hr
  -- the four branches
  by_cases hc1 : r < d / 2
  · simp only [hc1, if_true, e1]
    omega
  · simp only [hc1, if_false]
    by_cases hc2 : d / 2 < r
    · simp only [hc2, if_true, e2]
      omega
    · simp only [hc2, if_false]
      by_cases hc3 : T / d % 2 = 0
      · simp only [hc3, if_true, e1]
        omega
      · simp only [hc3, if_false, e2]
        omega

theorem c299_val : c299 = 5386305154335113 * 2 ^ 66 := by decide

theorem c587_val : c587 = 2643612981266481 * 2 ^ 68 := by decide

theorem c114_val : c114 = 8214565720323785 * 2 ^ 64 := by decide

theorem fMulTerm_close (c v : Nat) (hc : 2 ^ 116 ≤ c) (hc2 : c ≤ 2 ^ 120)
    (hv1 : 1 ≤ v) (hv : v ≤ 255) :
    2 ^ 53 * fMul c (v * fpScale) ≤ 2 ^ 53 * (c * v) + c * v ∧
    2 ^ 53 * (c * v) ≤ 2 ^ 53 * fMul c (v * fpScale) + c * v := by
  have hSpos : 0 < fpScale := Nat.pos_pow_of_pos 120 (by omega)
  have hden : 0 < fpScale * fpScale := Nat.mul_pos hSpos hSpos
  have hnum : c * (v * fpScale) * fpScale = c * v * (fpScale * fpScale) := by ring
  have hdiv : c * (v * fpScale) * fpScale / (fpScale * fpScale) = c * v := by
    rw [hnum]
    exact Nat.mul_div_cancel _ hden
  have hlo : 2 ^ 53 ≤ c * (v * fpScale) * fpScale / (fpScale * fpScale) := by
    rw [hdiv]
    calc (2 : Nat) ^ 53 ≤ 2 ^ 116 := Nat.pow_le_pow_right (by omega) (by omega)
      _ ≤ c := hc
      _ ≤ c * v := Nat.le_mul_of_pos_right c (by omega)
  have hhi : c * (v * fpScale) * fpScale / (fpScale * fpScale) < 2 ^ 500 := by
    rw [hdiv]
    calc c * v ≤ 2 ^ 120 * 255 := Nat.mul_le_mul hc2 hv
      _ < 2 ^ 500 := by norm_num
  obtain ⟨h1, h2⟩ := fround_close (c * (v * fpScale)) (fpScale * fpScale) hden hlo hhi
  constructor
  · have h1' : 2 ^ 53 * fMul c (v * fpScale) * (fpScale * fpScale)
        ≤ (2 ^ 53 * (c * v) + c * v) * (fpScale * fpScale) := by
      calc 2 ^ 53 * fMul c (v * fpScale) * (fpScale * fpScale)
          = 2 ^ 53 * (fround (c * (v * fpScale)) (fpScale * fpScale) * (fpScale * fpScale)) := by
            rw [fMul]; ring
        _ ≤ 2 ^ 53 * (c * (v * fpScale) * fpScale) + c * (v * fpScale) * fpScale := h1
        _ = (2 ^ 53 * (c * v) + c * v) * (fpScale * fpScale) := by rw [hnum]; ring
    exact Nat.le_of_mul_le_mul_right h1' hden
  · have h2' : 2 ^ 53 * (c * v) * (fpScale * fpScale)
        ≤ (2 ^ 53 * fMul c (v * fpScale) + c * v) * (fpScale * fpScale) := by
      calc 2 ^ 53 * (c * v) * (fpScale * fpScale)
          = 2 ^ 53 * (c * (v * fpScale) * fpScale) := by rw [hnum]; ring
        _ ≤ 2 ^ 53 * (fround (c * (v * fpScale)) (fpScale * fpScale) * (fpScale * fpScale))
            + c * (v * fpScale) * fpScale := h2
        _ = (2 ^ 53 * fMul c (v * fpScale) + c * v) * (fpScale * fpScale) := by
            rw [fMul, hnum]; ring
    exact Nat.le_of_mul_le_mul_right h2' hden

theorem fAdd_zero : fAdd 0 0 = 0 := by decide

theorem fAdd_close (x y : Nat) (hzero : x + y = 0 ∨ 2 ^ 90 ≤ x + y)
    (hhi : x + y < 2 ^ 300) :
    2 ^ 53 * fAdd x y ≤ 2 ^ 53 * (x + y) + (x + y) ∧
    2 ^ 53 * (x + y) ≤ 2 ^ 53 * fAdd x y + (x + y) := by
  rcases hzero with h0 | hbig
  · have hx : x = 0 := by omega
    have hy : y = 0 := by omega
    subst hx
    subst hy
    rw [fAdd_zero]
    omega
  · have hSpos : 0 < fpScale := Nat.pos_pow_of_pos 120 (by omega)
    have hdiv : (x + y) * fpScale / fpScale = x + y := Nat.mul_div_cancel _ hSpos
    have hlo : 2 ^ 53 ≤ (x + y) * fpScale / fpScale := by
      rw [hdiv]
      calc (2 : Nat) ^ 53 ≤ 2 ^ 90 := Nat.pow_le_pow_right (by omega) (by omega)
        _ ≤ x + y := hbig
    have hhi' : (x + y) * fpScale / fpScale < 2 ^ 500 := by
      rw [hdiv]
      calc x + y < 2 ^ 300 := hhi
        _ < 2 ^ 500 := by norm_num
    obtain ⟨h1, h2⟩ := fround_close (x + y) fpScale hSpos hlo hhi'
    constructor
    · have h1' : 2 ^ 53 * fAdd x y * fpScale ≤ (2 ^ 53 * (x + y) + (x + y)) * fpScale := by
        calc 2 ^ 53 * fAdd x y * fpScale
            = 2 ^ 53 * (fround (x + y) fpScale * fpScale) := by rw [fAdd]; ring
          _ ≤ 2 ^ 53 * ((x + y) * fpScale) + (x + y) * fpScale := h1
          _ = (2 ^ 53 * (x + y) + (x + y)) * fpScale := by ring
      exact Nat.le_of_mul_le_mul_right h1' hSpos
    · have h2' : 2 ^ 53 * (x + y) * fpScale ≤ (2 ^ 53 * fAdd x y + (x + y)) * fpScale := by
        calc 2 ^ 53 * (x + y) * fpScale = 2 ^ 53 * ((x + y) * fpScale) := by ring
          _ ≤ 2 ^ 53 * (fround (x + y) fpScale * fpScale) + (x + y) * fpScale := h2
          _ = (2 ^ 53 * fAdd x y + (x + y)) * fpScale := by rw [fAdd]; ring
      exact Nat.le_of_mul_le_mul_right h2' hSpos

theorem fMul_zero_right (c : Nat) : fMul c (0 * fpScale) = 0 := by
  have : c * (0 * fpScale) = 0 := by ring
  rw [fMul, this, fround, if_pos rfl]

theorem term299 (v : Nat) (hv : v ≤ 255) :
    1000 * fMul c299 (v * fpScale) ≤ 299 * v * fpScale + 2 ^ 90 ∧
    299 * v * fpScale ≤ 1000 * fMul c299 (v * fpScale) + 2 ^ 90 := by
  by_cases hv0 : v = 0
  · subst hv0
    rw [fMul_zero_right]
    omega
  · obtain ⟨m1, m2⟩ := fMulTerm_close c299 v (by decide) (by decide) (by omega) hv
    rw [c299_val] at m1 m2 ⊢
    simp only [fpScale] at m1 m2 ⊢
    omega

theorem term587 (v : Nat) (hv : v ≤ 255) :
    1000 * fMul c587 (v * fpScale) ≤ 587 * v * fpScale + 2 ^ 90 ∧
    587 * v * fpScale ≤ 1000 * fMul c587 (v * fpScale) + 2 ^ 90 := by
  by_cases hv0 : v = 0
  · subst hv0
    rw [fMul_zero_right]
    omega
  · obtain ⟨m1, m2⟩ := fMulTerm_close c587 v (by decide) (by decide) (by omega) hv
    rw [c587_val] at m1 m2 ⊢
    simp only [fpScale] at m1 m2 ⊢
    omega

theorem term114 (v : Nat) (hv : v ≤ 255) :
    1000 * fMul c114 (v * fpScale) ≤ 114 * v * fpScale + 2 ^ 90 ∧
    114 * v * fpScale ≤ 1000 * fMul c114 (v * fpScale) + 2 ^ 90 := by
  by_cases hv0 : v = 0
  · subst hv0
    rw [fMul_zero_right]
    omega
  · obtain ⟨m1, m2⟩ := fMulTerm_close c114 v (by decide) (by decide) (by omega) hv
    rw [c114_val] at m1 m2 ⊢
    simp only [fpScale] at m1 m2 ⊢
    omega

/-- The truncated binary64 luminance is within half a thousandth (scaled) of
the exact decimal weighted sum. -/
theorem graySum_close (r g b : Nat) (hr : r ≤ 255) (hg : g ≤ 255) (hb : b ≤ 255) :
    1000 * graySum r g b ≤ (299 * r + 587 * g + 114 * b) * fpScale + 2 ^ 119 ∧
    (299 * r + 587 * g + 114 * b) * fpScale ≤ 1000 * graySum r g b + 2 ^ 119 := by
  obtain ⟨t1a, t1b⟩ := term299 r hr
  obtain ⟨t2a, t2b⟩ := term587 g hg
  obtain ⟨t3a, t3b⟩ := term114 b hb
  rw [graySum]
  set P := fMul c299 (r * fpScale) with hP
  set G := fMul c587 (g * fpScale) with hG
  set B := fMul c114 (b * fpScale) with hB
  have hfp : fpScale = 2 ^ 120 := rfl
  have hP0 : P = 0 ∨ 2 ^ 110 ≤ P := by
    rcases Nat.eq_zero_or_pos r with h | h
    · left
      rw [hP, h, fMul_zero_right]
    · right
      rw [hfp] at t1b
      omega
  have hG0 : G = 0 ∨ 2 ^ 110 ≤ G := by
    rcases Nat.eq_zero_or_pos g with h | h
    · left
      rw [hG, h, fMul_zero_right]
    · right
      rw [hfp] at t2b
      omega
  have hB0 : B = 0 ∨ 2 ^ 110 ≤ B := by
    rcases Nat.eq_zero_or_pos b with h | h
    · left
      rw [hB, h, fMul_zero_right]
    · right
      rw [hfp] at t3b
      omega
  have hPub : P ≤ 2 ^ 128 := by
    rw [hfp] at t1a
    omega
  have hGub : G ≤ 2 ^ 128 := by
    rw [hfp] at t2a
    omega
  have hBub : B ≤ 2 ^ 128 := by
    rw [hfp] at t3a
    omega
  have hs1zero : P + G = 0 ∨ 2 ^ 90 ≤ P + G := by
    rcases hP0 with h | h <;> rcases hG0 with h2 | h2 <;> omega
  obtain ⟨s1a, s1b⟩ := fAdd_close P G hs1zero (by omega)
  set S1 := fAdd P G with hS1
  have hS1ub : S1 ≤ 2 ^ 130 := by omega
  have hS10 : S1 = 0 ∨ 2 ^ 89 ≤ S1 := by
    rcases hs1zero with h | h
    · left
      omega
    · right
      omega
  have hs2zero : S1 + B = 0 ∨ 2 ^ 90 ≤ S1 + B := by
    rcases hS10 with h | h <;> rcases hB0 with h2 | h2 <;> omega
  obtain ⟨s2a, s2b⟩ := fAdd_close S1 B hs2zero (by omega)
  rw [hfp] at t1a t1b t2a t2b t3a t3b ⊢
  omega

/-- The truncated binary64 luminance versus the exact decimal value
`(299r + 587g + 114b) / 1000`: equal whenever 1000 does not divide the
weighted sum, and at most one below it otherwise. -/
theorem calculate_gray_dichotomy (r g b : Nat) (hr : r ≤ 255) (hg : g ≤ 255)
    (hb : b ≤ 255) :
    (¬ 1000 ∣ 299 * r + 587 * g + 114 * b →
      calculate_gray_value r g b = (299 * r + 587 * g + 114 * b) / 1000) ∧
    (1000 ∣ 299 * r + 587 * g + 114 * b →
      calculate_gray_value r g b ≤ (299 * r + 587 * g + 114 * b) / 1000 ∧
      (299 * r + 587 * g + 114 * b) / 1000 ≤ calculate_gray_value r g b + 1) := by
  obtain ⟨h1, h2⟩ := graySum_close r g b hr hg hb
  have hfp : fpScale = 2 ^ 120 := rfl
  simp only [calculate_gray_value]
  rw [hfp] at h1 h2 ⊢
  constructor
  · intro hdvd
    omega
  · intro hdvd
    omega

/-- The binary64 luminance of 8-bit samples stays within the 8-bit range. -/
theorem calculate_gray_le (r g b : Nat) (hr : r ≤ 255) (hg : g ≤ 255)
    (hb : b ≤ 255) : calculate_gray_value r g b ≤ 255 := by
  obtain ⟨h1, h2⟩ := graySum_close r g b hr hg hb
  have hfp : fpScale = 2 ^ 120 := rfl
  simp only [calculate_gray_value]
  rw [hfp] at h1 h2 ⊢
  omega

/-! ### List helpers -/

theorem uniformValue_eq_some {α : Type} [DecidableEq α] (l : List α) (a : α)
    (hne : l ≠ []) (h : ∀ x ∈ l, x = a) : uniformValue l = some a := by
  cases l with
  | nil => exact absurd rfl hne
  | cons x xs =>
    have hx : x = a := h x (by simp)
    have hall : (xs.all fun y => y = x) = true := by
      simp only [List.all_eq_true, decide_eq_true_eq]
      intro y hy
      rw [h y (by simp [hy]), hx]
    simp only [uniformValue, hall, if_true]
    rw [hx]

theorem uniformValue_mem {α : Type} [DecidableEq α] {l : List α} {a : α}
    (h : uniformValue l = some a) : a ∈ l := by
  cases l with
  | nil => simp [uniformValue] at h
  | cons x xs =>
    by_cases hc : (xs.all fun y => y = x) = true
    · simp only [uniformValue, hc, if_true, Option.some.injEq] at h
      simp [← h]
    · simp [uniformValue, hc] at h

theorem chunk3_mem {p : Nat × Nat × Nat} :
    ∀ data : List Nat, p ∈ chunk3 data →
      p.1 ∈ data ∧ p.2.1 ∈ data ∧ p.2.2 ∈ data
  | [], h => by simp [chunk3] at h
  | [c0], h => by simp [chunk3] at h
  | [c0, c1], h => by simp [chunk3] at h
  | c0 :: c1 :: c2 :: rest, h => by
    rw [chunk3] at h
    rcases List.mem_cons.mp h with h | h
    · rw [h]
      simp
    · obtain ⟨h1, h2, h3⟩ := chunk3_mem rest h
      refine ⟨?_, ?_, ?_⟩ <;> simp [List.mem_cons, h1, h2, h3]

theorem chunk4drop_mem {p : Nat × Nat × Nat} :
    ∀ data : List Nat, p ∈ chunk4drop data →
      p.1 ∈ data ∧ p.2.1 ∈ data ∧ p.2.2 ∈ data
  | [], h => by simp [chunk4drop] at h
  | [c0], h => by simp [chunk4drop] at h
  | [c0, c1], h => by simp [chunk4drop] at h
  | [c0, c1, c2], h => by simp [chunk4drop] at h
  | c0 :: c1 :: c2 :: c3 :: rest, h => by
    rw [chunk4drop] at h
    rcases List.mem_cons.mp h with h | h
    · rw [h]
      simp
    · obtain ⟨h1, h2, h3⟩ := chunk4drop_mem rest h
      refine ⟨?_, ?_, ?_⟩ <;> simp [List.mem_cons, h1, h2, h3]

theorem chunk3_flatten3 : ∀ px : List (Nat × Nat × Nat), chunk3 (flatten3 px) = px
  | [] => rfl
  | p :: rest => by
    have h : flatten3 (p :: rest) = p.1 :: p.2.1 :: p.2.2 :: flatten3 rest := by
      rw [flatten3, flatten3]
      simp
    rw [h, chunk3, chunk3_flatten3 rest]

theorem flatten3_cons (p : Nat × Nat × Nat) (rest : List (Nat × Nat × Nat)) :
    flatten3 (p :: rest) = p.1 :: p.2.1 :: p.2.2 :: flatten3 rest := by
  rw [flatten3, flatten3]
  simp

theorem normalize_range (g : Nat) (h : g ≤ 255) :
    1 ≤ normalize_gray_value g ∧ normalize_gray_value g ≤ 254 := by
  rw [normalize_gray_value]
  by_cases h0 : g = 0
  · simp [h0]
  · rw [if_neg h0]
    by_cases h255 : g = 255
    · simp [h255]
    · rw [if_neg h255]
      omega

theorem cv2Gray_le {b g r : Nat} (hb : b ≤ 255) (hg : g ≤ 255) (hr : r ≤ 255) :
    cv2Gray b g r ≤ 255 := by
  rw [cv2Gray]
  omega

theorem imageioGray_le (r g b : Nat) : imageioGray r g b ≤ 255 := by
  rw [imageioGray]
  omega

/-! ### Branch analysis of the classifiers -/

theorem cv2_detect_gray_uniform (h w g : Nat) (data : List Nat)
    (hne : data ≠ []) (huni : ∀ v ∈ data, v = g) :
    cv2_detect_image_type ⟨[h, w], data⟩ =
      .ok (if g = 0 then .allBlack else if g = 255 then .allWhite
           else .singleColor g) := by
  have hs : ¬ NdArray.size ⟨[h, w], data⟩ = 0 := by
    simp [NdArray.size, List.length_eq_zero]
    exact hne
  have h2 : ({ shape := [h, w], data := data } : NdArray).shape.length = 2 := rfl
  rw [cv2_detect_image_type, if_neg hs, if_pos h2,
    uniformValue_eq_some data g hne huni]

theorem imageio_detect_gray_uniform (h w g : Nat) (data : List Nat)
    (hne : data ≠ []) (huni : ∀ v ∈ data, v = g) :
    imageio_detect_image_type ⟨[h, w], data⟩ =
      (if g = 0 then .allBlack else if g = 255 then .allWhite
       else .singleColor (normalize_gray_value g)) := by
  have hs : ¬ NdArray.size ⟨[h, w], data⟩ = 0 := by
    simp [NdArray.size, List.length_eq_zero]
    exact hne
  have h2 : ({ shape := [h, w], data := data } : NdArray).shape.length = 2 := rfl
  rw [imageio_detect_image_type, if_neg hs, if_pos h2,
    uniformValue_eq_some data g hne huni]

theorem cv2_detect_rgb_uniform_gray (h w g : Nat)
    (px : List (Nat × Nat × Nat)) (hne : px ≠ [])
    (huni : ∀ p ∈ px, cv2Gray p.1 p.2.1 p.2.2 = g) :
    cv2_detect_image_type ⟨[h, w, 3], flatten3 px⟩ =
      .ok (if g = 0 then .allBlack else if g = 255 then .allWhite
           else .singleColor g) := by
  obtain ⟨p, rest, rfl⟩ := List.exists_cons_of_ne_nil hne
  have hs : ¬ NdArray.size ⟨[h, w, 3], flatten3 (p :: rest)⟩ = 0 := by
    simp [NdArray.size, flatten3_cons]
  have a2 : ¬ ({ shape := [h, w, 3], data := flatten3 (p :: rest) } :
      NdArray).shape.length = 2 := by simp
  have a3 : ¬ ({ shape := [h, w, 3], data := flatten3 (p :: rest) } :
      NdArray).shape.length < 3 := by simp
  have a4 : ¬ ({ shape := [h, w, 3], data := flatten3 (p :: rest) } :
      NdArray).shape.getD 2 0 = 4 := by simp
  have a5 : ({ shape := [h, w, 3], data := flatten3 (p :: rest) } :
      NdArray).shape.getD 2 0 = 3 := by simp
  have a6 : ({ shape := [h, w, 3], data := flatten3 (p :: rest) } :
      NdArray).shape.length = 3 := by simp
  rw [cv2_detect_image_type, if_neg hs, if_neg a2, if_neg a3,
    if_neg a4, if_pos a5, if_pos a6, chunk3_flatten3]
  have hmap : (p :: rest).map (fun q => cv2Gray q.1 q.2.1 q.2.2) ≠ [] := by simp
  rw [cv2ClassifyBGR,
    uniformValue_eq_some _ g hmap (by
      intro y hy
      obtain ⟨q, hq, rfl⟩ := List.mem_map.mp hy
      exact huni q hq)]

theorem imageio_detect_rgb_uniform_gray (h w g : Nat)
    (px : List (Nat × Nat × Nat)) (hne : px ≠ [])
    (huni : ∀ p ∈ px, imageioGray p.1 p.2.1 p.2.2 = g) :
    imageio_detect_image_type ⟨[h, w, 3], flatten3 px⟩ =
      (if g = 0 then .allBlack else if g = 255 then .allWhite
       else .singleColor (normalize_gray_value g)) := by
  obtain ⟨p, rest, rfl⟩ := List.exists_cons_of_ne_nil hne
  have hs : ¬ NdArray.size ⟨[h, w, 3], flatten3 (p :: rest)⟩ = 0 := by
    simp [NdArray.size, flatten3_cons]
  have a2 : ¬ ({ shape := [h, w, 3], data := flatten3 (p :: rest) } :
      NdArray).shape.length = 2 := by simp
  have a3 : ({ shape := [h, w, 3], data := flatten3 (p :: rest) } :
      NdArray).shape.length = 3 := by simp
  have a4 : ¬ ({ shape := [h, w, 3], data := flatten3 (p :: rest) } :
      NdArray).shape.getD 2 0 = 4 := by simp
  have a5 : ({ shape := [h, w, 3], data := flatten3 (p :: rest) } :
      NdArray).shape.getD 2 0 = 3 := by simp
  rw [imageio_detect_image_type, if_neg hs, if_neg a2, if_pos a3,
    if_neg a4, if_pos a5, chunk3_flatten3]
  have hmap : (p :: rest).map (fun q => imageioGray q.1 q.2.1 q.2.2) ≠ [] := by
    simp
  rw [imageioClassifyRGB,
    uniformValue_eq_some _ g hmap (by
      intro y hy
      obtain ⟨q, hq, rfl⟩ := List.mem_map.mp hy
      exact huni q hq)]

theorem pillow_classify_uniform (image : PILImage) (p : Nat × Nat × Nat)
    (hne : image.toRGB ≠ []) (huni : ∀ q ∈ image.toRGB, q = p) :
    pillow_detect_image_type image =
      (if p.1 = 0 ∧ p.2.1 = 0 ∧ p.2.2 = 0 then .allBlack
       else if p.1 = 255 ∧ p.2.1 = 255 ∧ p.2.2 = 255 then .allWhite
       else .singleColor
         (normalize_gray_value (calculate_gray_value p.1 p.2.1 p.2.2))) := by
  rw [pillow_detect_image_type]
  cases him : image.toRGB with
  | nil => exact absurd him hne
  | cons first rest =>
    have hfirst : first = p := huni first (by rw [him]; simp)
    have hall : (rest.all fun q => q = first) = true := by
      simp only [List.all_eq_true, decide_eq_true_eq]
      intro q hq
      rw [huni q (by rw [him]; simp [hq]), hfirst]
    subst hfirst
    simp only [hall, if_true]
    rfl

/-! ### Claim theorems -/

/-- C4: `normalize_gray_value` maps 0 to 1 and 255 to 254 and fixes every
value in [1, 254]. -/
theorem C4_normalize_spec :
    normalize_gray_value 0 = 1 ∧ normalize_gray_value 255 = 254 ∧
    ∀ x : Nat, 1 ≤ x → x ≤ 254 → normalize_gray_value x = x := by
  refine ⟨rfl, rfl, ?_⟩
  intro x h1 h2
  rw [normalize_gray_value, if_neg (by omega), if_neg (by omega)]

theorem C4_normalize_spec_witness :
    (1 : Nat) ≤ 7 ∧ (7 : Nat) ≤ 254 ∧ normalize_gray_value 7 = 7 :=
  ⟨by decide, by decide, C4_normalize_spec.2.2 7 (by decide) (by decide)⟩

/-- C5 (counterexample): the classifiers' per-pixel gray value is not
`floor(0.299R + 0.587G + 0.114B)` computed exactly.  At R=G=B=1 the exact
value is 1.000 with floor 1, but the binary64 evaluation used by pillow and
imageio truncates to 0; and at (R,G,B) = (3,0,0) the exact floor is 0, but
cv2's `cvtColor` fixed-point gray rounds to 1. -/
theorem C5_counterexample :
    calculate_gray_value 1 1 1 = 0 ∧ (299 * 1 + 587 * 1 + 114 * 1) / 1000 = 1 ∧
    cv2Gray 0 0 3 = 1 ∧ (299 * 3 + 587 * 0 + 114 * 0) / 1000 = 0 :=
  ⟨by decide, by decide, by decide, by decide⟩

/-- C5 (amended): pillow and imageio truncate the binary64 evaluation of
`0.299R + 0.587G + 0.114B`, which equals the exact
`floor((299R + 587G + 114B)/1000)` whenever 1000 does not divide the weighted
sum and can fall one below it otherwise; cv2's gray comes from OpenCV's
rounding fixed-point formula instead (see `cv2Gray`). -/
theorem C5_amended (r g b : Nat) (hr : r ≤ 255) (hg : g ≤ 255) (hb : b ≤ 255) :
    (¬ 1000 ∣ 299 * r + 587 * g + 114 * b →
      calculate_gray_value r g b = (299 * r + 587 * g + 114 * b) / 1000) ∧
    (1000 ∣ 299 * r + 587 * g + 114 * b →
      calculate_gray_value r g b ≤ (299 * r + 587 * g + 114 * b) / 1000 ∧
      (299 * r + 587 * g + 114 * b) / 1000 ≤ calculate_gray_value r g b + 1) :=
  calculate_gray_dichotomy r g b hr hg hb

theorem C5_amended_witness :
    (1 : Nat) ≤ 255 ∧ ¬ 1000 ∣ 299 * 1 + 587 * 0 + 114 * 0 ∧
    calculate_gray_value 1 0 0 = (299 * 1 + 587 * 0 + 114 * 0) / 1000 ∧
    calculate_gray_value 2 2 2 ≤ (299 * 2 + 587 * 2 + 114 * 2) / 1000 :=
  ⟨by decide, by decide,
    (C5_amended 1 0 0 (by decide) (by decide) (by decide)).1 (by decide),
    ((C5_amended 2 2 2 (by decide) (by decide) (by decide)).2 (by decide)).1⟩

/-- C2 (counterexample): the three bindings do not always return the same
label on the same decoded pixel grid.  On the uniform gray-2 grayscale image,
cv2 and imageio report `SingleColor 2` but pillow reports `SingleColor 1`
(its binary64 luminance of the converted (2,2,2) pixel truncates to 1). -/
theorem C2_counterexample :
    cv2_detect_image_type ⟨[1, 1], [2]⟩ = .ok (.singleColor 2) ∧
    imageio_detect_image_type ⟨[1, 1], [2]⟩ = .singleColor 2 ∧
    pillow_detect_image_type (.l [2]) = .singleColor 1 :=
  ⟨by decide, by decide, by decide⟩

/-- C2 (amended): cv2 and imageio return identical labels on every 2-D
grayscale array; the divergences are on colour grids (different gray
formulas, and pillow's identical-pixel-first precedence) and, for pillow,
even on grayscale input, because its luminance recomputation can shift the
gray value. -/
theorem C2_amended (h w : Nat) (data : List Nat) :
    cv2_detect_image_type ⟨[h, w], data⟩ =
      .ok (imageio_detect_image_type ⟨[h, w], data⟩) := by
  have h2 : ({ shape := [h, w], data := data } : NdArray).shape.length = 2 := rfl
  rw [cv2_detect_image_type, imageio_detect_image_type]
  by_cases hs : NdArray.size ⟨[h, w], data⟩ = 0
  · rw [if_pos hs, if_pos hs]
  · rw [if_neg hs, if_neg hs, if_pos h2, if_pos h2]
    cases huv : uniformValue data with
    | none => rfl
    | some g =>
      by_cases h0 : g = 0
      · simp [h0]
      · by_cases h255 : g = 255
        · simp [h0, h255]
        · simp [h0, h255, normalize_gray_value]

/-- C1 (counterexample): claim C1 requires luminance-uniformity to decide
first in every binding, but pillow checks pixel-identity first.  The single
pixel (0,1,0) has luminance 0 (so the claim demands `AllBlack`), yet pillow
returns `SingleColor 1`. -/
theorem C1_counterexample :
    calculate_gray_value 0 1 0 = 0 ∧
    pillow_detect_image_type (.rgb [(0, 1, 0)]) = .singleColor 1 :=
  ⟨by decide, by decide⟩

/-- C1 (amended): in the cv2 and imageio classifiers the luminance-uniformity
test does decide first: whenever all computed per-pixel gray values equal
`g`, the result is `AllBlack` for `g = 0`, `AllWhite` for `g = 255`, and
`SingleColor (normalize g)` otherwise — for both grayscale and 3-channel
images.  The pillow classifier checks pixel-identity first instead. -/
theorem C1_amended :
    (∀ h w g : Nat, ∀ data : List Nat, data ≠ [] → (∀ v ∈ data, v = g) →
      cv2_detect_image_type ⟨[h, w], data⟩ =
        .ok (if g = 0 then .allBlack else if g = 255 then .allWhite
             else .singleColor (normalize_gray_value g))) ∧
    (∀ h w g : Nat, ∀ px : List (Nat × Nat × Nat), px ≠ [] →
      (∀ p ∈ px, cv2Gray p.1 p.2.1 p.2.2 = g) →
      cv2_detect_image_type ⟨[h, w, 3], flatten3 px⟩ =
        .ok (if g = 0 then .allBlack else if g = 255 then .allWhite
             else .singleColor (normalize_gray_value g))) ∧
    (∀ h w g : Nat, ∀ data : List Nat, data ≠ [] → (∀ v ∈ data, v = g) →
      imageio_detect_image_type ⟨[h, w], data⟩ =
        (if g = 0 then .allBlack else if g = 255 then .allWhite
         else .singleColor (normalize_gray_value g))) ∧
    (∀ h w g : Nat, ∀ px : List (Nat × Nat × Nat), px ≠ [] →
      (∀ p ∈ px, imageioGray p.1 p.2.1 p.2.2 = g) →
      imageio_detect_image_type ⟨[h, w, 3], flatten3 px⟩ =
        (if g = 0 then .allBlack else if g = 255 then .allWhite
         else .singleColor (normalize_gray_value g))) := by
  have hnorm : ∀ g : Nat,
      (if g = 0 then Label.allBlack else if g = 255 then Label.allWhite
       else Label.singleColor g) =
      (if g = 0 then Label.allBlack else if g = 255 then Label.allWhite
       else Label.singleColor (normalize_gray_value g)) := by
    intro g
    by_cases h0 : g = 0
    · simp [h0]
    · by_cases h255 : g = 255
      · simp [h0, h255]
      · simp [h0, h255, normalize_gray_value]
  refine ⟨?_, ?_, ?_, ?_⟩
  · intro h w g data hne huni
    rw [cv2_detect_gray_uniform h w g data hne huni, hnorm]
  · intro h w g px hne huni
    rw [cv2_detect_rgb_uniform_gray h w g px hne huni, hnorm]
  · intro h w g data hne huni
    exact imageio_detect_gray_uniform h w g data hne huni
  · intro h w g px hne huni
    exact imageio_detect_rgb_uniform_gray h w g px hne huni

theorem C1_amended_witness :
    cv2_detect_image_type ⟨[1, 2], [5, 5]⟩ =
      .ok (if 5 = 0 then .allBlack else if 5 = 255 then .allWhite
           else .singleColor (normalize_gray_value 5)) ∧
    imageio_detect_image_type ⟨[1, 1, 3], flatten3 [(0, 0, 1)]⟩ =
      (if 0 = 0 then .allBlack else if 0 = 255 then .allWhite
       else .singleColor (normalize_gray_value 0)) :=
  ⟨C1_amended.1 1 2 5 [5, 5] (by decide) (by decide),
    C1_amended.2.2.2 1 1 0 [(0, 0, 1)] (by decide) (by
      intro p hp
      rw [List.mem_singleton.mp hp]
      decide)⟩

/-- C6: on every non-empty all-black input (all samples 0, or all pixels
(0,0,0)) each binding returns `AllBlack`, and on every non-empty all-white
input (all samples 255, or all pixels (255,255,255)) each binding returns
`AllWhite`. -/
theorem C6_black_white :
    (∀ h w : Nat, ∀ data : List Nat, data ≠ [] → (∀ v ∈ data, v = 0) →
      cv2_detect_image_type ⟨[h, w], data⟩ = .ok .allBlack) ∧
    (∀ h w : Nat, ∀ data : List Nat, data ≠ [] → (∀ v ∈ data, v = 255) →
      cv2_detect_image_type ⟨[h, w], data⟩ = .ok .allWhite) ∧
    (∀ h w : Nat, ∀ px : List (Nat × Nat × Nat), px ≠ [] →
      (∀ p ∈ px, p = (0, 0, 0)) →
      cv2_detect_image_type ⟨[h, w, 3], flatten3 px⟩ = .ok .allBlack) ∧
    (∀ h w : Nat, ∀ px : List (Nat × Nat × Nat), px ≠ [] →
      (∀ p ∈ px, p = (255, 255, 255)) →
      cv2_detect_image_type ⟨[h, w, 3], flatten3 px⟩ = .ok .allWhite) ∧
    (∀ h w : Nat, ∀ data : List Nat, data ≠ [] → (∀ v ∈ data, v = 0) →
      imageio_detect_image_type ⟨[h, w], data⟩ = .allBlack) ∧
    (∀ h w : Nat, ∀ data : List Nat, data ≠ [] → (∀ v ∈ data, v = 255) →
      imageio_detect_image_type ⟨[h, w], data⟩ = .allWhite) ∧
    (∀ h w : Nat, ∀ px : List (Nat × Nat × Nat), px ≠ [] →
      (∀ p ∈ px, p = (0, 0, 0)) →
      imageio_detect_image_type ⟨[h, w, 3], flatten3 px⟩ = .allBlack) ∧
    (∀ h w : Nat, ∀ px : List (Nat × Nat × Nat), px ≠ [] →
      (∀ p ∈ px, p = (255, 255, 255)) →
      imageio_detect_image_type ⟨[h, w, 3], flatten3 px⟩ = .allWhite) ∧
    (∀ px : List Nat, px ≠ [] → (∀ v ∈ px, v = 0) →
      pillow_detect_image_type (.l px) = .allBlack) ∧
    (∀ px : List Nat, px ≠ [] → (∀ v ∈ px, v = 255) →
      pillow_detect_image_type (.l px) = .allWhite) ∧
    (∀ px : List (Nat × Nat × Nat), px ≠ [] → (∀ p ∈ px, p = (0, 0, 0)) →
      pillow_detect_image_type (.rgb px) = .allBlack) ∧
    (∀ px : List (Nat × Nat × Nat), px ≠ [] → (∀ p ∈ px, p = (255, 255, 255)) →
      pillow_detect_image_type (.rgb px) = .allWhite) := by
  refine ⟨?_, ?_, ?_, ?_, ?_, ?_, ?_, ?_, ?_, ?_, ?_, ?_⟩
  · intro h w data hne huni
    rw [cv2_detect_gray_uniform h w 0 data hne huni]
    decide
  · intro h w data hne huni
    rw [cv2_detect_gray_uniform h w 255 data hne huni]
    decide
  · intro h w px hne huni
    rw [cv2_detect_rgb_uniform_gray h w 0 px hne (by
      intro p hp
      rw [huni p hp]
      decide)]
    decide
  · intro h w px hne huni
    rw [cv2_detect_rgb_uniform_gray h w 255 px hne (by
      intro p hp
      rw [huni p hp]
      decide)]
    decide
  · intro h w data hne huni
    rw [imageio_detect_gray_uniform h w 0 data hne huni]
    decide
  · intro h w data hne huni
    rw [imageio_detect_gray_uniform h w 255 data hne huni]
    decide
  · intro h w px hne huni
    rw [imageio_detect_rgb_uniform_gray h w 0 px hne (by
      intro p hp
      rw [huni p hp]
      decide)]
    decide
  · intro h w px hne huni
    rw [imageio_detect_rgb_uniform_gray h w 255 px hne (by
      intro p hp
      rw [huni p hp]
      decide)]
    decide
  · intro px hne huni
    rw [pillow_classify_uniform (.l px) (0, 0, 0) (by
        simp [PILImage.toRGB, List.map_eq_nil_iff]
        exact hne)
      (by
        intro q hq
        simp only [PILImage.toRGB, List.mem_map] at hq
        obtain ⟨v, hv, rfl⟩ := hq
        rw [huni v hv])]
    decide
  · intro px hne huni
    rw [pillow_classify_uniform (.l px) (255, 255, 255) (by
        simp [PILImage.toRGB, List.map_eq_nil_iff]
        exact hne)
      (by
        intro q hq
        simp only [PILImage.toRGB, List.mem_map] at hq
        obtain ⟨v, hv, rfl⟩ := hq
        rw [huni v hv])]
    decide
  · intro px hne huni
    rw [pillow_classify_uniform (.rgb px) (0, 0, 0) hne huni]
    decide
  · intro px hne huni
    rw [pillow_classify_uniform (.rgb px) (255, 255, 255) hne huni]
    decide

theorem C6_black_white_witness :
    cv2_detect_image_type ⟨[1, 1], [0]⟩ = .ok .allBlack ∧
    cv2_detect_image_type ⟨[1, 1, 3], flatten3 [(255, 255, 255)]⟩ =
      .ok .allWhite ∧
    imageio_detect_image_type ⟨[1, 1, 3], flatten3 [(0, 0, 0)]⟩ = .allBlack ∧
    imageio_detect_image_type ⟨[2, 1], [255, 255]⟩ = .allWhite ∧
    pillow_detect_image_type (.rgb [(0, 0, 0)]) = .allBlack ∧
    pillow_detect_image_type (.l [255, 255]) = .allWhite :=
  ⟨C6_black_white.1 1 1 [0] (by decide) (by decide),
    C6_black_white.2.2.2.1 1 1 [(255, 255, 255)] (by decide) (by decide),
    C6_black_white.2.2.2.2.2.2.1 1 1 [(0, 0, 0)] (by decide) (by decide),
    C6_black_white.2.2.2.2.2.1 2 1 [255, 255] (by decide) (by decide),
    C6_black_white.2.2.2.2.2.2.2.2.2.2.1 [(0, 0, 0)] (by decide) (by decide),
    C6_black_white.2.2.2.2.2.2.2.2.2.1 [255, 255] (by decide) (by decide)⟩

theorem toRGB_valid (image : PILImage) (h : pilValid image) :
    ∀ p ∈ image.toRGB, p.1 ≤ 255 ∧ p.2.1 ≤ 255 ∧ p.2.2 ≤ 255 := by
  cases image with
  | l px =>
    intro p hp
    simp only [PILImage.toRGB, List.mem_map] at hp
    obtain ⟨v, hv, rfl⟩ := hp
    simp only [pilValid] at h
    exact ⟨h v hv, h v hv, h v hv⟩
  | rgb px =>
    intro p hp
    simp only [PILImage.toRGB] at hp
    simp only [pilValid] at h
    exact h p hp
  | rgba px =>
    intro p hp
    simp only [PILImage.toRGB, List.mem_map] at hp
    obtain ⟨q, hq, rfl⟩ := hp
    simp only [pilValid] at h
    exact h q hq

theorem cv2ClassifyBGR_singleColor (pixels : List (Nat × Nat × Nat))
    (hval : ∀ p ∈ pixels, p.1 ≤ 255 ∧ p.2.1 ≤ 255 ∧ p.2.2 ≤ 255) (k : Nat)
    (h : cv2ClassifyBGR pixels = .singleColor k) : 1 ≤ k ∧ k ≤ 254 := by
  rw [cv2ClassifyBGR] at h
  cases h1 : uniformValue (pixels.map fun p => cv2Gray p.1 p.2.1 p.2.2) with
  | some g =>
    rw [h1] at h
    by_cases h0 : g = 0
    · simp [h0] at h
    · by_cases h255 : g = 255
      · simp [h0, h255] at h
      · simp only [h0, h255, if_false, Label.singleColor.injEq] at h
        have hg : g ≤ 255 := by
          have hmem := uniformValue_mem h1
          obtain ⟨p, hp, rfl⟩ := List.mem_map.mp hmem
          exact cv2Gray_le (hval p hp).1 (hval p hp).2.1 (hval p hp).2.2
        omega
  | none =>
    rw [h1] at h
    cases h2 : uniformValue pixels with
    | some t =>
      obtain ⟨b, g, r⟩ := t
      rw [h2] at h
      by_cases hb : b = 0 ∧ g = 0 ∧ r = 0
      · simp [hb] at h
      · by_cases hw : b = 255 ∧ g = 255 ∧ r = 255
        · simp [hb, hw] at h
        · simp only [hb, hw, if_false, Label.singleColor.injEq] at h
          obtain ⟨hb', hg', hr'⟩ := hval (b, g, r) (uniformValue_mem h2)
          have hle := calculate_gray_le r g b hr' hg' hb'
          obtain ⟨hn1, hn2⟩ := normalize_range (calculate_gray_value r g b) hle
          omega
    | none =>
      rw [h2] at h
      simp at h

theorem imageioClassifyRGB_singleColor (pixels : List (Nat × Nat × Nat))
    (hval : ∀ p ∈ pixels, p.1 ≤ 255 ∧ p.2.1 ≤ 255 ∧ p.2.2 ≤ 255) (k : Nat)
    (h : imageioClassifyRGB pixels = .singleColor k) : 1 ≤ k ∧ k ≤ 254 := by
  rw [imageioClassifyRGB] at h
  cases h1 : uniformValue (pixels.map fun p => imageioGray p.1 p.2.1 p.2.2) with
  | some g =>
    rw [h1] at h
    by_cases h0 : g = 0
    · simp [h0] at h
    · by_cases h255 : g = 255
      · simp [h0, h255] at h
      · simp only [h0, h255, if_false, Label.singleColor.injEq] at h
        have hg : g ≤ 255 := by
          have hmem := uniformValue_mem h1
          obtain ⟨p, hp, rfl⟩ := List.mem_map.mp hmem
          exact imageioGray_le p.1 p.2.1 p.2.2
        obtain ⟨hn1, hn2⟩ := normalize_range g hg
        omega
  | none =>
    rw [h1] at h
    cases h2 : uniformValue pixels with
    | some t =>
      obtain ⟨r, g, b⟩ := t
      rw [h2] at h
      by_cases hb : r = 0 ∧ g = 0 ∧ b = 0
      · simp [hb] at h
      · by_cases hw : r = 255 ∧ g = 255 ∧ b = 255
        · simp [hb, hw] at h
        · simp only [hb, hw, if_false, Label.singleColor.injEq] at h
          obtain ⟨hr', hg', hb'⟩ := hval (r, g, b) (uniformValue_mem h2)
          have hle := calculate_gray_le r g b hr' hg' hb'
          obtain ⟨hn1, hn2⟩ := normalize_range (calculate_gray_value r g b) hle
          omega
    | none =>
      rw [h2] at h
      simp at h

/-- C3: each classifier returns one of the four labels by construction, and
whenever the label is `SingleColor k` on 8-bit input, `k` lies in [1, 254];
gray 0 and 255 always become `AllBlack` / `AllWhite` instead. -/
theorem C3_label_invariant :
    (∀ img : NdArray, (∀ v ∈ img.data, v ≤ 255) → ∀ k : Nat,
      cv2_detect_image_type img = .ok (.singleColor k) → 1 ≤ k ∧ k ≤ 254) ∧
    (∀ img : NdArray, (∀ v ∈ img.data, v ≤ 255) → ∀ k : Nat,
      imageio_detect_image_type img = .singleColor k → 1 ≤ k ∧ k ≤ 254) ∧
    (∀ image : PILImage, pilValid image → ∀ k : Nat,
      pillow_detect_image_type image = .singleColor k → 1 ≤ k ∧ k ≤ 254) := by
  refine ⟨?_, ?_, ?_⟩
  · intro img hval k h
    rw [cv2_detect_image_type] at h
    by_cases hs : img.size = 0
    · simp [hs] at h
    · rw [if_neg hs] at h
      by_cases h2 : img.shape.length = 2
      · rw [if_pos h2] at h
        cases h1 : uniformValue img.data with
        | none =>
          rw [h1] at h
          simp at h
        | some g =>
          rw [h1] at h
          by_cases h0 : g = 0
          · simp [h0] at h
          · by_cases h255 : g = 255
            · simp [h0, h255] at h
            · simp only [h0, h255, if_false, PyResult.ok.injEq,
                Label.singleColor.injEq] at h
              have hg : g ≤ 255 := hval g (uniformValue_mem h1)
              omega
      · rw [if_neg h2] at h
        by_cases h3 : img.shape.length < 3
        · rw [if_pos h3] at h
          simp at h
        · rw [if_neg h3] at h
          have hch3 : ∀ p ∈ chunk3 img.data,
              p.1 ≤ 255 ∧ p.2.1 ≤ 255 ∧ p.2.2 ≤ 255 := by
            intro p hp
            obtain ⟨m1, m2, m3⟩ := chunk3_mem img.data hp
            exact ⟨hval _ m1, hval _ m2, hval _ m3⟩
          have hch4 : ∀ p ∈ chunk4drop img.data,
              p.1 ≤ 255 ∧ p.2.1 ≤ 255 ∧ p.2.2 ≤ 255 := by
            intro p hp
            obtain ⟨m1, m2, m3⟩ := chunk4drop_mem img.data hp
            exact ⟨hval _ m1, hval _ m2, hval _ m3⟩
          by_cases h4 : img.shape.getD 2 0 = 4
          · rw [if_pos h4] at h
            by_cases hl3 : img.shape.length = 3
            · rw [if_pos hl3] at h
              simp only [PyResult.ok.injEq] at h
              exact cv2ClassifyBGR_singleColor _ hch4 k h
            · rw [if_neg hl3] at h
              simp at h
          · rw [if_neg h4] at h
            by_cases h5 : img.shape.getD 2 0 = 3
            · rw [if_pos h5] at h
              by_cases hl3 : img.shape.length = 3
              · rw [if_pos hl3] at h
                simp only [PyResult.ok.injEq] at h
                exact cv2ClassifyBGR_singleColor _ hch3 k h
              · rw [if_neg hl3] at h
                simp at h
            · rw [if_neg h5] at h
              simp at h
  · intro img hval k h
    rw [imageio_detect_image_type] at h
    by_cases hs : img.size = 0
    · simp [hs] at h
    · rw [if_neg hs] at h
      by_cases h2 : img.shape.length = 2
      · rw [if_pos h2] at h
        cases h1 : uniformValue img.data with
        | none =>
          rw [h1] at h
          simp at h
        | some g =>
          rw [h1] at h
          by_cases h0 : g = 0
          · simp [h0] at h
          · by_cases h255 : g = 255
            · simp [h0, h255] at h
            · simp only [h0, h255, if_false, Label.singleColor.injEq] at h
              have hg : g ≤ 255 := hval g (uniformValue_mem h1)
              obtain ⟨hn1, hn2⟩ := normalize_range g hg
              omega
      · rw [if_neg h2] at h
        by_cases h3 : img.shape.length = 3
        · rw [if_pos h3] at h
          have hch3 : ∀ p ∈ chunk3 img.data,
              p.1 ≤ 255 ∧ p.2.1 ≤ 255 ∧ p.2.2 ≤ 255 := by
            intro p hp
            obtain ⟨m1, m2, m3⟩ := chunk3_mem img.data hp
            exact ⟨hval _ m1, hval _ m2, hval _ m3⟩
          have hch4 : ∀ p ∈ chunk4drop img.data,
              p.1 ≤ 255 ∧ p.2.1 ≤ 255 ∧ p.2.2 ≤ 255 := by
            intro p hp
            obtain ⟨m1, m2, m3⟩ := chunk4drop_mem img.data hp
            exact ⟨hval _ m1, hval _ m2, hval _ m3⟩
          by_cases h4 : img.shape.getD 2 0 = 4
          · rw [if_pos h4] at h
            exact imageioClassifyRGB_singleColor _ hch4 k h
          · rw [if_neg h4] at h
            by_cases h5 : img.shape.getD 2 0 = 3
            · rw [if_pos h5] at h
              exact imageioClassifyRGB_singleColor _ hch3 k h
            · rw [if_neg h5] at h
              simp at h
        · rw [if_neg h3] at h
          simp at h
  · intro image hval k h
    have hv' := toRGB_valid image hval
    rw [pillow_detect_image_type] at h
    cases him : image.toRGB with
    | nil =>
      rw [him] at h
      simp at h
    | cons first rest =>
      rw [him] at h
      have hfv : first.1 ≤ 255 ∧ first.2.1 ≤ 255 ∧ first.2.2 ≤ 255 := by
        apply hv'
        rw [him]
        simp
      have hle := calculate_gray_le first.1 first.2.1 first.2.2
        hfv.1 hfv.2.1 hfv.2.2
      by_cases hall : (rest.all fun p => p = first) = true
      · simp only [hall, if_true] at h
        by_cases hb : first.1 = 0 ∧ first.2.1 = 0 ∧ first.2.2 = 0
        · simp [hb] at h
        · by_cases hw : first.1 = 255 ∧ first.2.1 = 255 ∧ first.2.2 = 255
          · simp [hb, hw] at h
          · simp only [hb, hw, if_false, Label.singleColor.injEq] at h
            by_cases hfg0 : calculate_gray_value first.1 first.2.1 first.2.2 = 0
            · simp [hfg0] at h
              omega
            · by_cases hfg255 :
                  calculate_gray_value first.1 first.2.1 first.2.2 = 255
              · simp [hfg0, hfg255] at h
                omega
              · simp [hfg0, hfg255] at h
                omega
      · simp only [hall, if_false] at h
        by_cases hall2 : (rest.all fun p =>
            calculate_gray_value p.1 p.2.1 p.2.2 =
              calculate_gray_value first.1 first.2.1 first.2.2) = true
        · simp only [hall2, if_true] at h
          by_cases hfg0 : calculate_gray_value first.1 first.2.1 first.2.2 = 0
          · simp [hfg0] at h
            omega
          · by_cases hfg255 :
                calculate_gray_value first.1 first.2.1 first.2.2 = 255
            · simp [hfg0, hfg255] at h
              omega
            · simp [hfg0, hfg255] at h
              omega
        · simp only [hall2, if_false] at h
          simp at h

theorem C3_label_invariant_witness :
    ((1 : Nat) ≤ 7 ∧ (7 : Nat) ≤ 254) ∧ ((1 : Nat) ≤ 5 ∧ (5 : Nat) ≤ 254) ∧
    ((1 : Nat) ≤ 140 ∧ (140 : Nat) ≤ 254) :=
  ⟨C3_label_invariant.1 ⟨[1, 1], [7]⟩ (by decide) 7 (by decide),
    C3_label_invariant.2.1 ⟨[1, 1], [5]⟩ (by decide) 5 (by decide),
    C3_label_invariant.2.2 (.rgb [(100, 150, 200)]) (by
        intro p hp
        rw [List.mem_singleton.mp hp]
        exact ⟨by decide, by decide, by decide⟩)
      140 (by decide)⟩

/-- C7: zero-pixel input is classified `MixedPixels` in every binding rather
than raising, and on decoded shapes (dimensionality 2 or 3) the cv2
classifier never reaches an exception; imageio and pillow are total by
construction. -/
theorem C7_zero_sized :
    (∀ sh : List Nat, cv2_detect_image_type ⟨sh, []⟩ = .ok .mixed) ∧
    (∀ sh : List Nat, imageio_detect_image_type ⟨sh, []⟩ = .mixed) ∧
    pillow_detect_image_type (.l []) = .mixed ∧
    pillow_detect_image_type (.rgb []) = .mixed ∧
    pillow_detect_image_type (.rgba []) = .mixed ∧
    (∀ img : NdArray, img.shape.length = 2 ∨ img.shape.length = 3 →
      ∃ l : Label, cv2_detect_image_type img = .ok l) := by
  refine ⟨?_, ?_, rfl, rfl, rfl, ?_⟩
  · intro sh
    rw [cv2_detect_image_type, if_pos (show NdArray.size ⟨sh, []⟩ = 0 from rfl)]
  · intro sh
    rw [imageio_detect_image_type,
      if_pos (show NdArray.size ⟨sh, []⟩ = 0 from rfl)]
  · intro img hsh
    by_cases hs : img.size = 0
    · exact ⟨.mixed, by rw [cv2_detect_image_type, if_pos hs]⟩
    · rcases hsh with h2 | h3
      · cases h1 : uniformValue img.data with
        | none =>
          exact ⟨.mixed, by
            rw [cv2_detect_image_type, if_neg hs, if_pos h2, h1]⟩
        | some g =>
          exact ⟨_, by rw [cv2_detect_image_type, if_neg hs, if_pos h2, h1]⟩
      · have hn2 : ¬ img.shape.length = 2 := by omega
        have hn3 : ¬ img.shape.length < 3 := by omega
        by_cases h4 : img.shape.getD 2 0 = 4
        · exact ⟨_, by
            rw [cv2_detect_image_type, if_neg hs, if_neg hn2, if_neg hn3,
              if_pos h4, if_pos h3]⟩
        · by_cases h5 : img.shape.getD 2 0 = 3
          · exact ⟨_, by
              rw [cv2_detect_image_type, if_neg hs, if_neg hn2, if_neg hn3,
                if_neg h4, if_pos h5, if_pos h3]⟩
          · exact ⟨.mixed, by
              rw [cv2_detect_image_type, if_neg hs, if_neg hn2, if_neg hn3,
                if_neg h4, if_neg h5]⟩

theorem C7_zero_sized_witness :
    cv2_detect_image_type ⟨[0, 0], []⟩ = .ok .mixed ∧
    imageio_detect_image_type ⟨[0, 4], []⟩ = .mixed ∧
    (∃ l : Label, cv2_detect_image_type ⟨[1, 1], [6]⟩ = .ok l) :=
  ⟨C7_zero_sized.1 [0, 0], C7_zero_sized.2.1 [0, 4],
    C7_zero_sized.2.2.2.2.2 ⟨[1, 1], [6]⟩ (Or.inl rfl)⟩

/-- C8: a benchmark run whose subprocess times out, fails to start, or whose
output does not match `TIME_PATTERN` is recorded as failed (`none`),
contributes nothing to the collected times (hence is excluded from the
average), is never retried (each outcome contributes at most its single
parse), and does not stop the remaining runs from being processed. -/
theorem C8_failed_runs (pre post : List ProcOutcome) (o : ProcOutcome)
    (h : run_solution o = none) :
    collectTimes (pre ++ o :: post) = collectTimes (pre ++ post) ∧
    averageTime (collectTimes (pre ++ o :: post)) =
      averageTime (collectTimes (pre ++ post)) ∧
    (∀ l : List ProcOutcome, (collectTimes l).length =
      (l.filter fun x => (run_solution x).isSome).length) ∧
    run_solution .timeout = none ∧ run_solution .startError = none ∧
    run_solution (.completed none) = none := by
  have key : collectTimes (pre ++ o :: post) = collectTimes (pre ++ post) := by
    rw [collectTimes, collectTimes, List.filterMap_append,
      List.filterMap_append, List.filterMap_cons_none h]
  refine ⟨key, by rw [key], ?_, rfl, rfl, rfl⟩
  intro l
  rw [collectTimes]
  induction l with
  | nil => rfl
  | cons x xs ih =>
    cases hx : run_solution x with
    | none => simp [List.filterMap_cons, List.filter_cons, hx, ih]
    | some t => simp [List.filterMap_cons, List.filter_cons, hx, ih]

theorem C8_failed_runs_witness :
    run_solution .timeout = none ∧
    collectTimes [.completed (some 5), .timeout, .completed (some 7)] =
      collectTimes [.completed (some 5), .completed (some 7)] :=
  ⟨rfl,
    (C8_failed_runs [.completed (some 5)] [.completed (some 7)]
      .timeout rfl).1⟩

/-- C9 (counterexample): the claim says any out-of-precondition shape is
totalised to `MixedPixels`, but the cv2 classifier evaluates `img.shape[2]`
on every nonempty array that is not 2-D, so a 1-D array raises `IndexError`
instead. -/
theorem C9_counterexample :
    cv2_detect_image_type ⟨[2], [5, 7]⟩ = .exn "IndexError" := by decide

/-- C9 (amended): imageio totalises fully — any dimensionality other than
2 or 3 and any 3-D channel count other than 3 or 4 yields `MixedPixels`; cv2
totalises 3-D arrays with unsupported channel counts the same way, but a
nonempty array of dimensionality below 2 raises `IndexError`. -/
theorem C9_amended (img : NdArray) :
    (img.shape.length ≠ 2 → img.shape.length ≠ 3 →
      imageio_detect_image_type img = .mixed) ∧
    (img.shape.length = 3 → img.shape.getD 2 0 ≠ 3 → img.shape.getD 2 0 ≠ 4 →
      imageio_detect_image_type img = .mixed ∧
      cv2_detect_image_type img = .ok .mixed) ∧
    (img.data ≠ [] → img.shape.length < 2 →
      cv2_detect_image_type img = .exn "IndexError") := by
  refine ⟨?_, ?_, ?_⟩
  · intro h2 h3
    rw [imageio_detect_image_type]
    by_cases hs : img.size = 0
    · rw [if_pos hs]
    · rw [if_neg hs, if_neg h2, if_neg h3]
  · intro h3 hc3 hc4
    constructor
    · rw [imageio_detect_image_type]
      by_cases hs : img.size = 0
      · rw [if_pos hs]
      · rw [if_neg hs, if_neg (by omega), if_pos h3, if_neg hc4, if_neg hc3]
    · rw [cv2_detect_image_type]
      by_cases hs : img.size = 0
      · rw [if_pos hs]
      · rw [if_neg hs, if_neg (by omega), if_neg (by omega), if_neg hc4,
          if_neg hc3]
  · intro hne hlt
    have hs : ¬ img.size = 0 := by
      rw [NdArray.size]
      simp [List.length_eq_zero]
      exact hne
    rw [cv2_detect_image_type, if_neg hs, if_neg (by omega),
      if_pos (show img.shape.length < 3 by omega)]

theorem C9_amended_witness :
    imageio_detect_image_type ⟨[1, 1, 5], [9]⟩ = .mixed ∧
    cv2_detect_image_type ⟨[1, 1, 5], [9]⟩ = .ok .mixed ∧
    cv2_detect_image_type ⟨[3], [7]⟩ = .exn "IndexError" :=
  ⟨((C9_amended ⟨[1, 1, 5], [9]⟩).2.1 rfl (by decide) (by decide)).1,
    ((C9_amended ⟨[1, 1, 5], [9]⟩).2.1 rfl (by decide) (by decide)).2,
    (C9_amended ⟨[3], [7]⟩).2.2 (by decide) (by decide)⟩

theorem noFiles_ne_total (folder t : String) :
    "No supported image files found in " ++ folder ++ "." ≠
      "Total processing time: " ++ t ++ " milliseconds" := by
  intro hcon
  have hd := congrArg String.data hcon
  rw [String.data_append, String.data_append, String.data_append,
    String.data_append] at hd
  have h1 : ("No supported image files found in " : String).data
      = 'N' :: ("o supported image files found in " : String).data := rfl
  have h2 : ("Total processing time: " : String).data
      = 'T' :: ("otal processing time: " : String).data := rfl
  rw [h1, h2, List.cons_append, List.cons_append] at hd
  exact absurd (List.cons.inj hd).1 (by decide)

theorem supported_ne_total (s t : String) :
    "Supported formats: " ++ s ≠
      "Total processing time: " ++ t ++ " milliseconds" := by
  intro hcon
  have hd := congrArg String.data hcon
  rw [String.data_append, String.data_append, String.data_append] at hd
  have h1 : ("Supported formats: " : String).data
      = 'S' :: ("upported formats: " : String).data := rfl
  have h2 : ("Total processing time: " : String).data
      = 'T' :: ("otal processing time: " : String).data := rfl
  rw [h1, h2, List.cons_append, List.cons_append] at hd
  exact absurd (List.cons.inj hd).1 (by decide)

/-- C10: when the folder listing contains no supported image file, the
output is exactly the two-line message, so no per-image result line and no
final `Total processing time` line is printed. -/
theorem C10_no_images (folder_path : String) (listing : List String)
    (decode : String → Option (String × Nat × Nat × Label)) (elapsed : String)
    (h : listing.filter (fun f => is_image_file f) = []) :
    process_images folder_path listing decode elapsed =
      ["No supported image files found in " ++ folder_path ++ ".",
       "Supported formats: "
         ++ String.intercalate ", " (sortStrings SUPPORTED_FORMATS)] ∧
    ∀ t : String,
      ("Total processing time: " ++ t ++ " milliseconds")
        ∉ process_images folder_path listing decode elapsed := by
  have key : process_images folder_path listing decode elapsed =
      ["No supported image files found in " ++ folder_path ++ ".",
       "Supported formats: "
         ++ String.intercalate ", " (sortStrings SUPPORTED_FORMATS)] := by
    rw [process_images, get_image_files, h]
    rw [if_pos (show sortStrings [] = [] from rfl)]
  refine ⟨key, ?_⟩
  intro t hmem
  rw [key] at hmem
  rcases List.mem_cons.mp hmem with h1 | h1
  · exact noFiles_ne_total folder_path t h1.symm
  · rcases List.mem_cons.mp h1 with h2 | h2
    · exact supported_ne_total _ t h2.symm
    · simp at h2

theorem C10_no_images_witness :
    process_images "data" ["notes.txt", "readme"]
      (fun _ => none) "1.00" =
      ["No supported image files found in " ++ "data" ++ ".",
       "Supported formats: "
         ++ String.intercalate ", " (sortStrings SUPPORTED_FORMATS)] :=
  (C10_no_images "data" ["notes.txt", "readme"] (fun _ => none) "1.00"
    (by decide)).1

end ImageCapture
